import Mathlib

/-!
Verification of the LBO engine of `company_valuation/lbo.py`.

Modelling conventions:
* Python floats are modelled by `ℚ`; the code's arithmetic (sums, `min`,
  `max`, division) is exact in this model.  The one real-number operation,
  `moic ** (1 / years)` (line 323), is modelled over `ℝ` by `resultIRR`.
* Python exceptions are modelled by `Option`: a function returns `none`
  exactly where the Python code would raise (an `IndexError` from
  `self.projections[-1]` on an empty projection list, or an undefined
  local when the inner loop of `run_model` runs zero iterations).
* `run_model` keeps the per-tranche balances in a dict keyed by tranche
  name (`debt_balances`, lines 231-232); we model the dict by a total
  function `String → ℚ` updated pointwise by `updBal`, and the dict
  construction `{t.name: t.amount for t in tranches}` by `amountOf`
  (first match; identical to the dict when names are distinct, which is
  the documented invariant "name (unique within a model)").  The sum
  `sum(debt_balances.values())` is modelled by `sumBals`, the sum of the
  balances over the tranche list, which coincides with the dict-value sum
  when tranche names are distinct.
* Python's stable `sorted(..., key=lambda x: x.cash_sweep_priority)`
  (lines 271-274) is modelled by `List.insertionSort` on the relation
  `priorityLE`, which is also a stable sort.
-/

/-- `DebtTranche` (lbo.py lines 18-46): one slice of acquisition debt. -/
structure DebtTranche where
  name : String
  amount : ℚ
  interest_rate : ℚ
  amortization_rate : ℚ := 0
  is_revolver : Bool := false
  revolver_commitment : ℚ := 0
  cash_sweep_priority : ℤ := 1
deriving DecidableEq

/-- `DebtTranche.annual_amortization` (lines 40-42). -/
def DebtTranche.annual_amortization (t : DebtTranche) (original_amount : ℚ) : ℚ :=
  original_amount * t.amortization_rate

/-- `DebtTranche.interest_expense` (lines 44-46). -/
def DebtTranche.interest_expense (t : DebtTranche) (balance : ℚ) : ℚ :=
  balance * t.interest_rate

/-- `LBOProjection` (lines 49-67): one year of operating assumptions. -/
structure LBOProjection where
  year : ℤ
  ebitda : ℚ
  capex : ℚ := 0
  delta_nwc : ℚ := 0
  tax_rate : ℚ := 25/100
  depreciation : ℚ := 0
deriving DecidableEq

/-- One entry of the `yearly_results` ledger built by `run_model`
(lines 304-313); the Python code uses a dict with these exact keys. -/
structure YearRecord where
  year : ℤ
  ebitda : ℚ
  interest_expense : ℚ
  fcf : ℚ
  mandatory_amortization : ℚ
  cash_sweep : ℚ
  revolver_change : ℚ
  ending_debt : ℚ
deriving DecidableEq

/-- `LBOResult` (lines 70-80).  The Python record also stores `irr`, a
float computed at line 323 from `moic` and the number of years; since that
is the model's only real-number (non-rational) operation it is exposed
here as the function `resultIRR` on the result instead of a field. -/
structure LBOResult where
  entry_equity : ℚ
  exit_equity : ℚ
  moic : ℚ
  exit_enterprise_value : ℚ
  exit_net_debt : ℚ
  total_debt_paydown : ℚ
  yearly_results : List YearRecord
deriving DecidableEq

/-- `SourcesAndUses` (lines 83-115). -/
structure SourcesAndUses where
  term_loan : ℚ := 0
  revolver_draw : ℚ := 0
  other_debt : ℚ := 0
  sponsor_equity : ℚ := 0
  rollover_equity : ℚ := 0
  equity_purchase : ℚ := 0
  refinance_debt : ℚ := 0
  transaction_fees : ℚ := 0
  financing_fees : ℚ := 0
deriving DecidableEq

/-- `SourcesAndUses.total_sources` (lines 99-102). -/
def SourcesAndUses.total_sources (s : SourcesAndUses) : ℚ :=
  s.term_loan + s.revolver_draw + s.other_debt + s.sponsor_equity + s.rollover_equity

/-- `SourcesAndUses.total_uses` (lines 104-107). -/
def SourcesAndUses.total_uses (s : SourcesAndUses) : ℚ :=
  s.equity_purchase + s.refinance_debt + s.transaction_fees + s.financing_fees

/-- `SourcesAndUses.total_debt` (lines 109-111). -/
def SourcesAndUses.total_debt (s : SourcesAndUses) : ℚ :=
  s.term_loan + s.revolver_draw + s.other_debt

/-- `SourcesAndUses.is_balanced` (lines 113-115). -/
def SourcesAndUses.is_balanced (s : SourcesAndUses) (tolerance : ℚ) : Bool :=
  decide (|s.total_sources - s.total_uses| < tolerance)

/-- `LBOModel` (lines 118-150): entry assumptions, capital structure and
projections.  `min_cash` is declared by the source but never read. -/
structure LBOModel where
  entry_ebitda : ℚ
  entry_multiple : ℚ
  debt_tranches : List DebtTranche
  projections : List LBOProjection
  exit_multiple : ℚ
  transaction_fees_pct : ℚ := 2/100
  financing_fees_pct : ℚ := 2/100
  min_cash : ℚ := 0
deriving DecidableEq

/-- `LBOModel.purchase_price` (lines 152-155). -/
def LBOModel.purchase_price (m : LBOModel) : ℚ :=
  m.entry_ebitda * m.entry_multiple

/-- `LBOModel.total_initial_debt` (lines 157-160). -/
def LBOModel.total_initial_debt (m : LBOModel) : ℚ :=
  (m.debt_tranches.map DebtTranche.amount).sum

/-- `LBOModel.transaction_fees` (lines 162-165). -/
def LBOModel.transaction_fees (m : LBOModel) : ℚ :=
  m.purchase_price * m.transaction_fees_pct

/-- `LBOModel.financing_fees` (lines 167-170). -/
def LBOModel.financing_fees (m : LBOModel) : ℚ :=
  m.total_initial_debt * m.financing_fees_pct

/-- `LBOModel.initial_equity` (lines 172-176): the sponsor equity plug. -/
def LBOModel.initial_equity (m : LBOModel) : ℚ :=
  m.purchase_price + m.transaction_fees + m.financing_fees - m.total_initial_debt

/-- `LBOModel.sources_and_uses` (lines 178-191). -/
def LBOModel.sources_and_uses (m : LBOModel) : SourcesAndUses :=
  { term_loan := ((m.debt_tranches.filter (fun t => !t.is_revolver)).map DebtTranche.amount).sum
    revolver_draw := ((m.debt_tranches.filter (fun t => t.is_revolver)).map DebtTranche.amount).sum
    sponsor_equity := m.initial_equity
    equity_purchase := m.purchase_price
    transaction_fees := m.transaction_fees
    financing_fees := m.financing_fees }

/-- `LBOModel._calculate_free_cash_flow` (lines 193-209); `self` is unused
by the Python method, so it is a function of the projection and interest. -/
def calculate_free_cash_flow (proj : LBOProjection) (interest_expense : ℚ) : ℚ :=
  let taxable_income := proj.ebitda - proj.depreciation - interest_expense
  let taxes := max 0 (taxable_income * proj.tax_rate)
  proj.ebitda - interest_expense - taxes - proj.capex - proj.delta_nwc

/-- Pointwise update of the balance dict: `debt_balances[n] = v`. -/
def updBal (bals : String → ℚ) (n : String) (v : ℚ) : String → ℚ :=
  fun k => if k = n then v else bals k

/-- The dict `{t.name: t.amount for t in tranches}` (lines 231-232) read
at a name: the amount of the first tranche with the given name, 0 for a
name that is not present (never queried by the code).  Coincides with the
Python dict when tranche names are distinct. -/
def amountOf (ts : List DebtTranche) (n : String) : ℚ :=
  match ts.find? (fun t => t.name == n) with
  | some t => t.amount
  | none => 0

/-- `sum(debt_balances.values())` (lines 312 and 318) under the distinct-
names invariant: the sum of each tranche's balance. -/
def sumBals (ts : List DebtTranche) (bals : String → ℚ) : ℚ :=
  (ts.map (fun t => bals t.name)).sum

/-- `total_interest` of the inner loop (lines 242-245). -/
def total_interest (ts : List DebtTranche) (bals : String → ℚ) : ℚ :=
  (ts.map (fun t => t.interest_expense (bals t.name))).sum

/-- The inner convergence loop of `run_model` (lines 236-253): repeatedly
recompute total interest and FCF from the current balances; stop when the
change from the previous iteration's interest is below the threshold
(`break` keeps the just-computed values) or when the iteration budget is
exhausted (the last computed values are kept).  `none` models the Python
`NameError` that a zero-iteration budget would produce (`total_interest`
would be an unbound local). -/
def interestLoop (ts : List DebtTranche) (bals : String → ℚ) (proj : LBOProjection)
    (convergence_threshold : ℚ) : ℚ → ℕ → Option (ℚ × ℚ)
  | _, 0 => none
  | prev, fuel + 1 =>
    let ti := total_interest ts bals
    let fcf := calculate_free_cash_flow proj ti
    if |ti - prev| < convergence_threshold then some (ti, fcf)
    else if fuel = 0 then some (ti, fcf)
    else interestLoop ts bals proj convergence_threshold ti fuel

/-- The sort key of the cash sweep (line 273): ascending `cash_sweep_priority`. -/
def priorityLE (a b : DebtTranche) : Prop :=
  a.cash_sweep_priority ≤ b.cash_sweep_priority

instance : DecidableRel priorityLE :=
  fun a b => inferInstanceAs (Decidable (a.cash_sweep_priority ≤ b.cash_sweep_priority))

instance : IsTotal DebtTranche priorityLE :=
  ⟨fun a b => Int.le_total a.cash_sweep_priority b.cash_sweep_priority⟩

instance : IsTrans DebtTranche priorityLE :=
  ⟨fun _ _ _ hab hbc => le_trans hab hbc⟩

/-- `sorted([t for t in self.debt_tranches if not t.is_revolver], key=...)`
(lines 271-274): the non-revolver tranches, stably sorted by priority. -/
def sweepOrder (ts : List DebtTranche) : List DebtTranche :=
  List.insertionSort priorityLE (ts.filter (fun t => !t.is_revolver))

/-- The cash-sweep walk (lines 276-283): pay each tranche in order
`min(remaining_cash, balance)` until the cash is exhausted.  Returns the
updated balances, the accumulated `sweep_paydown` and the remaining cash. -/
def sweepLoop : List DebtTranche → (String → ℚ) → ℚ → ℚ → ((String → ℚ) × ℚ × ℚ)
  | [], bals, sweep_paydown, remaining => (bals, sweep_paydown, remaining)
  | t :: ps, bals, sweep_paydown, remaining =>
    if remaining ≤ 0 then (bals, sweep_paydown, remaining)
    else
      let paydown := min remaining (bals t.name)
      sweepLoop ps (updBal bals t.name (bals t.name - paydown))
        (sweep_paydown + paydown) (remaining - paydown)

/-- Step C, the cash sweep (lines 267-283): runs only when
`cash_for_sweep > 0`.  Returns the updated balances and `sweep_paydown`. -/
def cash_sweep_step (ts : List DebtTranche) (bals : String → ℚ)
    (cash_for_sweep : ℚ) : (String → ℚ) × ℚ :=
  if 0 < cash_for_sweep then
    let res := sweepLoop (sweepOrder ts) bals 0 cash_for_sweep
    (res.1, res.2.1)
  else (bals, 0)

/-- Step B, mandatory amortization (lines 255-262): every non-revolver
tranche pays `min(annual_amortization(original), balance)`. -/
def amortLoop (orig : String → ℚ) :
    List DebtTranche → (String → ℚ) → ℚ → ((String → ℚ) × ℚ)
  | [], bals, mandatory_paydown => (bals, mandatory_paydown)
  | t :: ps, bals, mandatory_paydown =>
    if t.is_revolver then amortLoop orig ps bals mandatory_paydown
    else
      let amort := min (t.annual_amortization (orig t.name)) (bals t.name)
      amortLoop orig ps (updBal bals t.name (bals t.name - amort))
        (mandatory_paydown + amort)

/-- Step D, revolver handling (lines 285-299): draw when `cash_for_sweep`
is negative, repay when it is positive and the sweep paid nothing.  As in
the source, `revolver_change` is overwritten (not accumulated) by each
revolver tranche acted upon. -/
def revolverLoop (cash_for_sweep sweep_paydown : ℚ) :
    List DebtTranche → (String → ℚ) → ℚ → ((String → ℚ) × ℚ)
  | [], bals, revolver_change => (bals, revolver_change)
  | t :: ps, bals, revolver_change =>
    if t.is_revolver then
      if cash_for_sweep < 0 then
        let draw := min (-cash_for_sweep) (t.revolver_commitment - bals t.name)
        revolverLoop cash_for_sweep sweep_paydown ps
          (updBal bals t.name (bals t.name + draw)) draw
      else if 0 < cash_for_sweep ∧ sweep_paydown = 0 then
        let repay := min cash_for_sweep (bals t.name)
        revolverLoop cash_for_sweep sweep_paydown ps
          (updBal bals t.name (bals t.name - repay)) (-repay)
      else revolverLoop cash_for_sweep sweep_paydown ps bals revolver_change
    else revolverLoop cash_for_sweep sweep_paydown ps bals revolver_change

/-- One projection year of `run_model` (lines 236-313): inner convergence
loop, then Steps B, C, D, then the ledger row.  Returns the row and the
end-of-year balances. -/
def runYear (ts : List DebtTranche) (orig : String → ℚ) (max_iterations : ℕ)
    (convergence_threshold : ℚ) (proj : LBOProjection) (bals : String → ℚ) :
    Option (YearRecord × (String → ℚ)) :=
  match interestLoop ts bals proj convergence_threshold 0 max_iterations with
  | none => none
  | some (ti, fcf) =>
    let a := amortLoop orig ts bals 0
    let cash_for_sweep := fcf - a.2
    let s := cash_sweep_step ts a.1 cash_for_sweep
    let rv := revolverLoop cash_for_sweep s.2 ts s.1 0
    some
      ({ year := proj.year, ebitda := proj.ebitda, interest_expense := ti, fcf := fcf,
         mandatory_amortization := a.2, cash_sweep := s.2, revolver_change := rv.2,
         ending_debt := sumBals ts rv.1 }, rv.1)

/-- The year loop of `run_model` (lines 236-313), threading the balances,
the running `total_paydown` (line 301-302) and the ledger. -/
def runYearsLoop (ts : List DebtTranche) (orig : String → ℚ) (max_iterations : ℕ)
    (convergence_threshold : ℚ) :
    List LBOProjection → (String → ℚ) → ℚ → List YearRecord →
    Option ((String → ℚ) × ℚ × List YearRecord)
  | [], bals, total_paydown, yearly => some (bals, total_paydown, yearly)
  | proj :: ps, bals, total_paydown, yearly =>
    match runYear ts orig max_iterations convergence_threshold proj bals with
    | none => none
    | some (row, bals') =>
      runYearsLoop ts orig max_iterations convergence_threshold ps bals'
        (total_paydown +
          (row.mandatory_amortization + row.cash_sweep - row.revolver_change))
        (yearly ++ [row])

/-- The terminal step of `run_model` (lines 315-334): exit enterprise
value from the final year's EBITDA, exit equity, MOIC. -/
def exitResult (m : LBOModel) (lastProj : LBOProjection) (bals : String → ℚ)
    (total_paydown : ℚ) (yearly : List YearRecord) : LBOResult :=
  let exit_ev := lastProj.ebitda * m.exit_multiple
  let exit_debt := sumBals m.debt_tranches bals
  let exit_equity := exit_ev - exit_debt
  let moic := if 0 < m.initial_equity then exit_equity / m.initial_equity else 0
  { entry_equity := m.initial_equity, exit_equity := exit_equity, moic := moic,
    exit_enterprise_value := exit_ev, exit_net_debt := exit_debt,
    total_debt_paydown := total_paydown, yearly_results := yearly }

/-- `LBOModel.run_model` (lines 211-334).  The final `none` models the
`IndexError` that `self.projections[-1]` (line 316) raises on an empty
projection list. -/
def LBOModel.run_model (m : LBOModel) (max_iterations : ℕ)
    (convergence_threshold : ℚ) : Option LBOResult :=
  (runYearsLoop m.debt_tranches (amountOf m.debt_tranches) max_iterations
      convergence_threshold m.projections (amountOf m.debt_tranches) 0 []).bind
    fun st => (m.projections.getLast?).map
      fun lastProj => exitResult m lastProj st.1 st.2.1 st.2.2

/-- `irr` (line 323): `moic ** (1 / years) - 1` when `moic > 0` and
`years > 0`, else `0`.  The only real-valued (non-rational) computation of
the module. -/
noncomputable def resultIRR (r : LBOResult) (years : ℕ) : ℝ :=
  if 0 < r.moic ∧ 0 < years then (r.moic : ℝ) ^ ((1 : ℝ) / years) - 1 else 0

/-- The final-year EBITDA that line 316 reads (`projections[-1].ebitda`),
with junk value 0 for the empty list. -/
def lastEbitda (m : LBOModel) : ℚ :=
  ((m.projections.getLast?).map LBOProjection.ebitda).getD 0

/-- The per-trial tranche mutation of `solve_for_entry_multiple`
(lines 363-367): `scale = mid / original_multiple`, and then each
tranche's amount becomes `amount * scale / (entry_multiple /
original_multiple)` where `entry_multiple` was set to `mid` at line 361 —
so the divisor equals `scale` and the assignment is a no-op. -/
def trial_tranches (ts : List DebtTranche) (original_multiple mid : ℚ) :
    List DebtTranche :=
  let scale := mid / original_multiple
  ts.map fun t => { t with amount := t.amount * scale / (mid / original_multiple) }

/-- The model state after one trial's mutations: line 361 sets
`entry_multiple` to the midpoint and line 367 reassigns every tranche
amount (a no-op in fact, see `trial_tranches`). -/
def trialModel (m : LBOModel) (original_multiple mid : ℚ) : LBOModel :=
  { m with entry_multiple := mid,
           debt_tranches := trial_tranches m.debt_tranches original_multiple mid }

open scoped Classical in
/-- The binary-search loop of `solve_for_entry_multiple` (lines 357-381),
in state-passing form: the returned model is the mutated `self` at the
moment the Python function returns.  The inner `run_model()` call uses the
Python defaults (10, 0.01).  `none` propagates an exception raised by
`run_model`.  The IRR compared at lines 371 and 375 is `result.irr`,
i.e. `resultIRR` at the model's year count. -/
noncomputable def solveLoop (original_multiple : ℚ) (target_irr tolerance : ℝ) :
    ℕ → LBOModel → ℚ → ℚ → Option (Option ℚ × LBOModel)
  | 0, m, _, _ => some (none, { m with entry_multiple := original_multiple })
  | fuel + 1, m, low, high =>
    let mid := (low + high) / 2
    let m2 : LBOModel := trialModel m original_multiple mid
    match m2.run_model 10 (1/100) with
    | none => none
    | some result =>
      if |resultIRR result m2.projections.length - target_irr| < tolerance then
        some (some mid, { m2 with entry_multiple := original_multiple })
      else if target_irr < resultIRR result m2.projections.length then
        solveLoop original_multiple target_irr tolerance fuel m2 mid high
      else
        solveLoop original_multiple target_irr tolerance fuel m2 low mid

/-- `LBOModel.solve_for_entry_multiple` (lines 336-381), state-passing:
returns the Python return value paired with the model state on return. -/
noncomputable def LBOModel.solve_for_entry_multiple (m : LBOModel) (target_irr : ℝ)
    (min_multiple max_multiple : ℚ) (tolerance : ℝ) :
    Option (Option ℚ × LBOModel) :=
  solveLoop m.entry_multiple target_irr tolerance 50 m min_multiple max_multiple

/-- `run_model` in state-passing form: the Python method writes only to
locals (`debt_balances`, `original_amounts`, accumulators) and never to
`self` or to a tranche, so the model state on return is the input state. -/
def runModelS (m : LBOModel) (max_iterations : ℕ) (convergence_threshold : ℚ) :
    Option (LBOResult × LBOModel) :=
  (m.run_model max_iterations convergence_threshold).map fun r => (r, m)

/-- A small single-tranche model used by the C10 witness: price 500, one
senior term loan of 200 at 0%, one projection year, exit at 4x, no fees. -/
def mBase : LBOModel :=
  { entry_ebitda := 100, entry_multiple := 5,
    debt_tranches := [{ name := "Senior", amount := 200, interest_rate := 0,
                        amortization_rate := 0 }],
    projections := [{ year := 1, ebitda := 100, capex := 0, delta_nwc := 0,
                      tax_rate := 0, depreciation := 0 }],
    exit_multiple := 4, transaction_fees_pct := 0, financing_fees_pct := 0 }

/-- One projection year: EBITDA 100, no capex, taxes, NWC or D&A. -/
def pB0 : LBOProjection :=
  { year := 1, ebitda := 100, capex := 0, delta_nwc := 0,
    tax_rate := 0, depreciation := 0 }

/-- A debt-free model: price 500, no tranches, one projection year of
EBITDA 100, exit at 4x, no fees.  Entry equity 500, exit equity 400. -/
def mB0 : LBOModel :=
  { entry_ebitda := 100, entry_multiple := 5, debt_tranches := [],
    projections := [pB0], exit_multiple := 4,
    transaction_fees_pct := 0, financing_fees_pct := 0 }

/-- The hand-computed result of `mB0.run_model 10 (1/100)`. -/
def rB0 : LBOResult :=
  { entry_equity := 500, exit_equity := 400, moic := 4/5,
    exit_enterprise_value := 400, exit_net_debt := 0, total_debt_paydown := 0,
    yearly_results :=
      [{ year := 1, ebitda := 100, interest_expense := 0, fcf := 100,
         mandatory_amortization := 0, cash_sweep := 0, revolver_change := 0,
         ending_debt := 0 }] }

/-- The hand-computed result of `mB0` run with the exit multiple at 5x. -/
def rB0Hi : LBOResult :=
  { entry_equity := 500, exit_equity := 500, moic := 1,
    exit_enterprise_value := 500, exit_net_debt := 0, total_debt_paydown := 0,
    yearly_results :=
      [{ year := 1, ebitda := 100, interest_expense := 0, fcf := 100,
         mandatory_amortization := 0, cash_sweep := 0, revolver_change := 0,
         ending_debt := 0 }] }

/-- A model with an empty projection list (`run_model` raises on it). -/
def mEmpty : LBOModel :=
  { entry_ebitda := 100, entry_multiple := 5,
    debt_tranches := [{ name := "Senior", amount := 200, interest_rate := 0 }],
    projections := [], exit_multiple := 4 }

/-- An undrawn revolver tranche with a commitment of 10. -/
def tR1 : DebtTranche :=
  { name := "R1", amount := 0, interest_rate := 0, is_revolver := true,
    revolver_commitment := 10 }

/-- A second undrawn revolver tranche with a commitment of 10. -/
def tR2 : DebtTranche :=
  { name := "R2", amount := 0, interest_rate := 0, is_revolver := true,
    revolver_commitment := 10 }

/-- A projection year with EBITDA 0 and capex 10 (FCF is -10). -/
def pTR : LBOProjection :=
  { year := 1, ebitda := 0, capex := 10, delta_nwc := 0,
    tax_rate := 0, depreciation := 0 }

/-- A model with two revolver tranches, both drawn in year 1: the ledger's
`revolver_change` records only the second draw, breaking the paydown
telescoping identity. -/
def mTwoRev : LBOModel :=
  { entry_ebitda := 100, entry_multiple := 5,
    debt_tranches := [tR1, tR2],
    projections := [pTR],
    exit_multiple := 5, transaction_fees_pct := 0, financing_fees_pct := 0 }

/-- The hand-computed result of `mTwoRev.run_model 10 (1/100)`: both
revolvers draw 10, but the ledger's `revolver_change` keeps only the
second draw, so `total_debt_paydown` is -10 while the debt grew by 20. -/
def rTwoRev : LBOResult :=
  { entry_equity := 500, exit_equity := -20, moic := -1/25,
    exit_enterprise_value := 0, exit_net_debt := 20, total_debt_paydown := -10,
    yearly_results :=
      [{ year := 1, ebitda := 0, interest_expense := 0, fcf := -10,
         mandatory_amortization := 0, cash_sweep := 0, revolver_change := 10,
         ending_debt := 20 }] }

/-- The Senior tranche of the spec's multi-tranche scenario:
400 @ 7%, 1% amortization, sweep priority 1. -/
def tSenior : DebtTranche :=
  { name := "Senior", amount := 400, interest_rate := 7/100,
    amortization_rate := 1/100, cash_sweep_priority := 1 }

/-- The Mezz tranche of the spec's multi-tranche scenario:
150 @ 12%, no amortization, sweep priority 2. -/
def tMezz : DebtTranche :=
  { name := "Mezz", amount := 150, interest_rate := 12/100,
    amortization_rate := 0, cash_sweep_priority := 2 }

/-- The Senior/Mezz tranche pair. -/
def tsSM : List DebtTranche := [tSenior, tMezz]

/-- One projection year used with `tsSM`. -/
def pSM : LBOProjection :=
  { year := 1, ebitda := 100, capex := 10, delta_nwc := 0,
    tax_rate := 25/100, depreciation := 5 }

/-- A 1000 tranche at 0% with no amortization. -/
def tUni : DebtTranche :=
  { name := "Uni", amount := 1000, interest_rate := 0, amortization_rate := 0 }

/-- A model whose sponsor-equity plug is negative (price 400, debt 1000):
the MOIC is clamped to 0 regardless of the exit multiple. -/
def mNegEq : LBOModel :=
  { entry_ebitda := 100, entry_multiple := 4,
    debt_tranches := [tUni],
    projections := [pB0],
    exit_multiple := 5, transaction_fees_pct := 0, financing_fees_pct := 0 }

/-- The hand-computed result of `mNegEq.run_model 10 (1/100)` (exit 5x):
the sweep pays 100 of the 1000 tranche, and MOIC is clamped to 0 because
the entry equity is -600. -/
def rNegEq : LBOResult :=
  { entry_equity := -600, exit_equity := -400, moic := 0,
    exit_enterprise_value := 500, exit_net_debt := 900, total_debt_paydown := 100,
    yearly_results :=
      [{ year := 1, ebitda := 100, interest_expense := 0, fcf := 100,
         mandatory_amortization := 0, cash_sweep := 100, revolver_change := 0,
         ending_debt := 900 }] }

/-- The hand-computed result of `mNegEq` run at exit 6x: MOIC is again 0. -/
def rNegEqHi : LBOResult :=
  { entry_equity := -600, exit_equity := -300, moic := 0,
    exit_enterprise_value := 600, exit_net_debt := 900, total_debt_paydown := 100,
    yearly_results :=
      [{ year := 1, ebitda := 100, interest_expense := 0, fcf := 100,
         mandatory_amortization := 0, cash_sweep := 100, revolver_change := 0,
         ending_debt := 900 }] }

/-- A projection year with capex exceeding EBITDA (FCF is -100). -/
def pNeg : LBOProjection :=
  { year := 1, ebitda := 100, capex := 200, delta_nwc := 0,
    tax_rate := 0, depreciation := 0 }

/-- A debt-free model used to exercise the solver: with no tranches and an
exit multiple of 0 every trial's MOIC is 0, so the IRR of every trial is 0
and a target IRR of 1 is never met: the solver exhausts its 50 iterations
and returns the not-found signal, restoring the entry multiple. -/
def mSolve : LBOModel :=
  { entry_ebitda := 100, entry_multiple := 8, debt_tranches := [],
    projections := [pNeg],
    exit_multiple := 0, transaction_fees_pct := 0, financing_fees_pct := 0 }

/-- The hand-computed result of `mSolve` run at entry multiple `x`:
exit value and exit equity are 0, so the MOIC is 0 whatever `x` is. -/
def rSolve (x : ℚ) : LBOResult :=
  { entry_equity := 100 * x, exit_equity := 0, moic := 0,
    exit_enterprise_value := 0, exit_net_debt := 0, total_debt_paydown := 0,
    yearly_results :=
      [{ year := 1, ebitda := 100, interest_expense := 0, fcf := -100,
         mandatory_amortization := 0, cash_sweep := 0, revolver_change := 0,
         ending_debt := 0 }] }

theorem updBal_same (bals : String → ℚ) (n : String) (v : ℚ) :
    updBal bals n v n = v := by
  simp [updBal]

theorem updBal_ne (bals : String → ℚ) {n k : String} (v : ℚ) (h : k ≠ n) :
    updBal bals n v k = bals k := by
  simp [updBal, h]

theorem sumBals_nil (bals : String → ℚ) : sumBals [] bals = 0 := rfl

theorem sumBals_cons (t : DebtTranche) (ts : List DebtTranche) (bals : String → ℚ) :
    sumBals (t :: ts) bals = bals t.name + sumBals ts bals := by
  simp [sumBals]

theorem sumBals_updBal_not_mem {ts : List DebtTranche} {n : String}
    (h : n ∉ ts.map DebtTranche.name) (bals : String → ℚ) (v : ℚ) :
    sumBals ts (updBal bals n v) = sumBals ts bals := by
  induction ts with
  | nil => rfl
  | cons t ts ih =>
    simp only [List.map_cons, List.mem_cons, not_or] at h
    rw [sumBals_cons, sumBals_cons, updBal_ne bals v (fun hc => h.1 hc.symm), ih h.2]

theorem sumBals_updBal_mem {ts : List DebtTranche} {n : String}
    (hnd : (ts.map DebtTranche.name).Nodup) (h : n ∈ ts.map DebtTranche.name)
    (bals : String → ℚ) (v : ℚ) :
    sumBals ts (updBal bals n v) = sumBals ts bals - bals n + v := by
  induction ts with
  | nil => simp at h
  | cons t ts ih =>
    simp only [List.map_cons, List.nodup_cons] at hnd
    simp only [List.map_cons, List.mem_cons] at h
    rw [sumBals_cons, sumBals_cons]
    rcases h with h | h
    · subst h
      rw [updBal_same, sumBals_updBal_not_mem hnd.1]
      ring
    · have hne : t.name ≠ n := fun hc => hnd.1 (hc ▸ h)
      rw [updBal_ne bals v hne, ih hnd.2 h]
      ring

theorem amountOf_mem {ts : List DebtTranche} {t : DebtTranche}
    (hnd : (ts.map DebtTranche.name).Nodup) (ht : t ∈ ts) :
    amountOf ts t.name = t.amount := by
  induction ts with
  | nil => simp at ht
  | cons u ts ih =>
    simp only [List.map_cons, List.nodup_cons] at hnd
    rcases List.mem_cons.mp ht with h | h
    · subst h
      simp [amountOf, List.find?]
    · have hne : u.name ≠ t.name :=
        fun hc => hnd.1 (hc ▸ List.mem_map_of_mem DebtTranche.name h)
      have : (u.name == t.name) = false := beq_false_of_ne hne
      simp only [amountOf, List.find?, this]
      exact ih hnd.2 h

theorem sumBals_amountOf {ts : List DebtTranche}
    (hnd : (ts.map DebtTranche.name).Nodup) :
    sumBals ts (amountOf ts) = (ts.map DebtTranche.amount).sum := by
  unfold sumBals
  congr 1
  exact List.map_congr_left (fun t ht => amountOf_mem hnd ht)

theorem amountOf_nonneg {ts : List DebtTranche}
    (h : ∀ t ∈ ts, 0 ≤ t.amount) (n : String) : 0 ≤ amountOf ts n := by
  unfold amountOf
  cases hf : ts.find? (fun t => t.name == n) with
  | none => exact le_refl 0
  | some t => exact h t (List.mem_of_find?_eq_some hf)

theorem term_plus_revolver (m : LBOModel) :
    ((m.debt_tranches.filter (fun t => !t.is_revolver)).map DebtTranche.amount).sum +
      ((m.debt_tranches.filter (fun t => t.is_revolver)).map DebtTranche.amount).sum =
      m.total_initial_debt := by
  have h := List.filter_append_perm (fun t => t.is_revolver) m.debt_tranches
  have h2 := (h.map DebtTranche.amount).sum_eq
  simp only [List.map_append, List.sum_append] at h2
  rw [LBOModel.total_initial_debt, ← h2]
  ring

/-- C10: for every model, `sources_and_uses()` balances exactly — sponsor
equity is the plug `purchase price + transaction fees + financing fees −
total initial debt`, so total sources equal total uses and `is_balanced`
holds for every positive tolerance. -/
theorem sources_and_uses_balanced (m : LBOModel) :
    (m.sources_and_uses).total_sources = (m.sources_and_uses).total_uses ∧
    ∀ tolerance : ℚ, 0 < tolerance →
      (m.sources_and_uses).is_balanced tolerance = true := by
  have key : (m.sources_and_uses).total_sources = (m.sources_and_uses).total_uses := by
    have h := term_plus_revolver m
    simp only [LBOModel.sources_and_uses, SourcesAndUses.total_sources,
      SourcesAndUses.total_uses, LBOModel.initial_equity]
    linear_combination h
  refine ⟨key, fun tolerance htol => ?_⟩
  rw [SourcesAndUses.is_balanced, key]
  simpa using htol

/-- C10 witness: the balance check at tolerance 1/100 on `mBase`. -/
theorem sources_and_uses_balanced_witness :
    (0 : ℚ) < 1/100 ∧ (mBase.sources_and_uses).is_balanced (1/100) = true :=
  ⟨by norm_num, (sources_and_uses_balanced mBase).2 (1/100) (by norm_num)⟩

/-- C1 (code bug, lines 359-367): with the entry multiple already set to
the midpoint at line 361, the divisor `entry_multiple / original_multiple`
of line 367 equals `scale`, so each trial multiplies every tranche amount
by `(mid/orig) / (mid/orig) = 1` and no rescaling happens.  At original
multiple 8 and midpoint 10 a 400 tranche stays at 400, where the claimed
proportional rescaling would give `400 * 10/8 = 500`. -/
theorem solver_rescale_noop_bug :
    (trial_tranches
        [{ name := "Unitranche", amount := 400, interest_rate := 9/100,
           amortization_rate := 1/100, is_revolver := false,
           revolver_commitment := 0, cash_sweep_priority := 1 }] 8 10).map
        DebtTranche.amount = [400] ∧
    (400 : ℚ) * (10 / 8) = 500 ∧ (400 : ℚ) ≠ 500 := by
  refine ⟨?_, by norm_num, by norm_num⟩
  norm_num [trial_tranches]

/-- C2 (code bug, line 316): on an empty projection list the year loop is
skipped but `self.projections[-1]` then raises `IndexError`, so
`run_model` fails instead of returning a result with IRR 0. -/
theorem run_model_empty_projections_fails :
    mEmpty.projections = [] ∧ mEmpty.run_model 10 (1/100) = none :=
  ⟨rfl, rfl⟩

theorem interestLoop_eq_single_pass (ts : List DebtTranche) (bals : String → ℚ)
    (proj : LBOProjection) (thr : ℚ) :
    ∀ fuel, 1 ≤ fuel → ∀ prev,
      interestLoop ts bals proj thr prev fuel =
        some (total_interest ts bals,
          calculate_free_cash_flow proj (total_interest ts bals)) := by
  intro fuel
  induction fuel with
  | zero => intro h; exact absurd h (by omega)
  | succ f ih =>
    intro _ prev
    simp only [interestLoop]
    by_cases h : |total_interest ts bals - prev| < thr
    · rw [if_pos h]
    · rw [if_neg h]
      rcases Nat.eq_zero_or_pos f with hf | hf
      · subst hf
        rw [if_pos rfl]
      · rw [if_neg (Nat.pos_iff_ne_zero.mp hf)]
        exact ih hf (total_interest ts bals)

/-- C3: the inner interest/FCF convergence loop is extensionally a single
pass — for any iteration budget of at least 1 and any convergence
threshold it returns exactly the interest computed from the start-of-year
balances and the FCF formula applied to that interest, and those are the
values recorded in the year's ledger row. -/
theorem inner_loop_single_pass (ts : List DebtTranche) (bals : String → ℚ)
    (proj : LBOProjection) (convergence_threshold : ℚ) (max_iterations : ℕ)
    (hm : 1 ≤ max_iterations) :
    interestLoop ts bals proj convergence_threshold 0 max_iterations =
      some (total_interest ts bals,
        calculate_free_cash_flow proj (total_interest ts bals)) ∧
    ∀ (orig : String → ℚ) (row : YearRecord) (bals' : String → ℚ),
      runYear ts orig max_iterations convergence_threshold proj bals =
          some (row, bals') →
        row.interest_expense = total_interest ts bals ∧
        row.fcf = calculate_free_cash_flow proj (total_interest ts bals) := by
  have h1 := interestLoop_eq_single_pass ts bals proj convergence_threshold
    max_iterations hm 0
  refine ⟨h1, fun orig row bals' h => ?_⟩
  rw [runYear, h1] at h
  simp only [Option.some.injEq, Prod.mk.injEq] at h
  rw [← h.1]
  exact ⟨rfl, rfl⟩

/-- C3 witness: the loop at budget 10 on the Senior/Mezz tranches. -/
theorem inner_loop_single_pass_witness :
    1 ≤ 10 ∧
    interestLoop tsSM (amountOf tsSM) pSM (1/100) 0 10 =
      some (total_interest tsSM (amountOf tsSM),
        calculate_free_cash_flow pSM (total_interest tsSM (amountOf tsSM))) :=
  ⟨by decide,
    (inner_loop_single_pass tsSM (amountOf tsSM) pSM (1/100) 10 (by decide)).1⟩

theorem runYear_eq (ts : List DebtTranche) (orig : String → ℚ) (max_iterations : ℕ)
    (convergence_threshold : ℚ) (proj : LBOProjection) (bals : String → ℚ)
    (hm : 1 ≤ max_iterations) :
    runYear ts orig max_iterations convergence_threshold proj bals =
      (let ti := total_interest ts bals
       let fcf := calculate_free_cash_flow proj ti
       let a := amortLoop orig ts bals 0
       let cash_for_sweep := fcf - a.2
       let s := cash_sweep_step ts a.1 cash_for_sweep
       let rv := revolverLoop cash_for_sweep s.2 ts s.1 0
       some ({ year := proj.year, ebitda := proj.ebitda, interest_expense := ti,
               fcf := fcf, mandatory_amortization := a.2, cash_sweep := s.2,
               revolver_change := rv.2, ending_debt := sumBals ts rv.1 }, rv.1)) := by
  rw [runYear, interestLoop_eq_single_pass ts bals proj convergence_threshold
    max_iterations hm 0]

theorem run_model_mB0 : mB0.run_model 10 (1/100) = some rB0 := by
  have h := runYear_eq [] (amountOf []) 10 (1/100) pB0 (amountOf []) (by norm_num)
  simp only [LBOModel.run_model, mB0, runYearsLoop, h]
  norm_num [total_interest, calculate_free_cash_flow, amortLoop, cash_sweep_step,
    sweepOrder, sweepLoop, revolverLoop, sumBals, exitResult, LBOModel.initial_equity,
    LBOModel.purchase_price, LBOModel.total_initial_debt, LBOModel.transaction_fees,
    LBOModel.financing_fees, pB0, rB0]

/-- C8: `run_model` never writes to the model (in the source it assigns
only to locals, re-deriving the balance dict from the tranche amounts at
lines 231-232 on every call), so two successive calls on the same
unmodified instance return results identical in every field. -/
theorem run_model_idempotent (m m1 m2 : LBOModel) (r1 r2 : LBOResult)
    (max_iterations : ℕ) (convergence_threshold : ℚ)
    (h1 : runModelS m max_iterations convergence_threshold = some (r1, m1))
    (h2 : runModelS m1 max_iterations convergence_threshold = some (r2, m2)) :
    r2.entry_equity = r1.entry_equity ∧ r2.exit_equity = r1.exit_equity ∧
    r2.moic = r1.moic ∧ r2.exit_enterprise_value = r1.exit_enterprise_value ∧
    r2.exit_net_debt = r1.exit_net_debt ∧
    r2.total_debt_paydown = r1.total_debt_paydown ∧
    r2.yearly_results = r1.yearly_results ∧
    (∀ years, resultIRR r2 years = resultIRR r1 years) ∧ m2 = m1 := by
  unfold runModelS at h1 h2
  rcases Option.map_eq_some'.mp h1 with ⟨a, ha, hpair⟩
  rcases Option.map_eq_some'.mp h2 with ⟨b, hb, hpair2⟩
  obtain ⟨har, ham⟩ := Prod.mk.injEq .. ▸ hpair
  obtain ⟨hbr, hbm⟩ := Prod.mk.injEq .. ▸ hpair2
  subst har ham hbr hbm
  rw [ha] at hb
  cases hb
  exact ⟨rfl, rfl, rfl, rfl, rfl, rfl, rfl, fun _ => rfl, rfl⟩

theorem runModelS_mB0 : runModelS mB0 10 (1/100) = some (rB0, mB0) := by
  rw [runModelS, run_model_mB0]
  rfl

/-- C8 witness: two runs of `mB0`. -/
theorem run_model_idempotent_witness :
    runModelS mB0 10 (1/100) = some (rB0, mB0) ∧ rB0.moic = rB0.moic :=
  ⟨runModelS_mB0,
    (run_model_idempotent mB0 mB0 mB0 rB0 rB0 10 (1/100)
      runModelS_mB0 runModelS_mB0).2.2.1⟩

theorem trial_tranches_id {original_multiple mid : ℚ} (ts : List DebtTranche)
    (ho : original_multiple ≠ 0) (hm : mid ≠ 0) :
    trial_tranches ts original_multiple mid = ts := by
  have hs : mid / original_multiple ≠ 0 := div_ne_zero hm ho
  simp only [trial_tranches]
  induction ts with
  | nil => rfl
  | cons t ts ih =>
    rw [List.map_cons, ih, mul_div_cancel_right₀ _ hs]

theorem trialModel_tranches {original_multiple mid : ℚ} (m : LBOModel)
    (ho : original_multiple ≠ 0) (hm : mid ≠ 0) :
    (trialModel m original_multiple mid).debt_tranches = m.debt_tranches :=
  trial_tranches_id _ ho hm

theorem solveLoop_restores {original_multiple : ℚ} (target_irr tolerance : ℝ)
    (ho : original_multiple ≠ 0) :
    ∀ (fuel : ℕ) (m : LBOModel) (low high : ℚ), 0 < low → 0 < high →
      ∀ (res : Option ℚ) (m' : LBOModel),
        solveLoop original_multiple target_irr tolerance fuel m low high =
            some (res, m') →
          m'.entry_multiple = original_multiple ∧
          m'.debt_tranches = m.debt_tranches := by
  intro fuel
  induction fuel with
  | zero =>
    intro m low high _ _ res m' h
    simp only [solveLoop, Option.some.injEq, Prod.mk.injEq] at h
    rw [← h.2]
    exact ⟨rfl, rfl⟩
  | succ f ih =>
    intro m low high hlow hhigh res m' h
    have hmid : (0 : ℚ) < (low + high) / 2 := by positivity
    simp only [solveLoop] at h
    rcases hrm : (trialModel m original_multiple ((low + high) / 2)).run_model
        10 (1/100) with _ | result
    · rw [hrm] at h
      exact absurd h (by simp)
    · rw [hrm] at h
      dsimp only at h
      have htr : (trialModel m original_multiple ((low + high) / 2)).debt_tranches =
          m.debt_tranches := trialModel_tranches m ho (ne_of_gt hmid)
      split_ifs at h
      · simp only [Option.some.injEq, Prod.mk.injEq] at h
        rw [← h.2]
        exact ⟨rfl, htr⟩
      · obtain ⟨h1, h2⟩ := ih _ _ _ hmid hhigh res m' h
        exact ⟨h1, h2.trans htr⟩
      · obtain ⟨h1, h2⟩ := ih _ _ _ hlow hmid res m' h
        exact ⟨h1, h2.trans htr⟩

/-- C4: on every return path of `solve_for_entry_multiple` — the
tolerance-met return of the midpoint and the iteration-exhausted not-found
return — the model comes back with its original `entry_multiple` and its
tranche list (hence every tranche amount) unchanged.  The positivity of
the search bounds and the nonzero original multiple exclude the paths on
which the Python code would raise a `ZeroDivisionError` instead of
returning. -/
theorem solve_restores_state (m : LBOModel) (target_irr tolerance : ℝ)
    (min_multiple max_multiple : ℚ) (res : Option ℚ) (m' : LBOModel)
    (hmin : 0 < min_multiple) (hmax : 0 < max_multiple)
    (ho : m.entry_multiple ≠ 0)
    (h : m.solve_for_entry_multiple target_irr min_multiple max_multiple tolerance =
      some (res, m')) :
    m'.entry_multiple = m.entry_multiple ∧ m'.debt_tranches = m.debt_tranches := by
  rw [LBOModel.solve_for_entry_multiple] at h
  exact solveLoop_restores target_irr tolerance ho 50 m min_multiple max_multiple
    hmin hmax res m' h

theorem run_model_mSolve (x : ℚ) :
    ({ mSolve with entry_multiple := x } : LBOModel).run_model 10 (1/100) =
      some (rSolve x) := by
  have h := runYear_eq [] (amountOf []) 10 (1/100) pNeg (amountOf []) (by norm_num)
  simp only [LBOModel.run_model, mSolve, runYearsLoop, h]
  norm_num [total_interest, calculate_free_cash_flow, amortLoop, cash_sweep_step,
    sweepOrder, sweepLoop, revolverLoop, sumBals, exitResult, LBOModel.initial_equity,
    LBOModel.purchase_price, LBOModel.total_initial_debt, LBOModel.transaction_fees,
    LBOModel.financing_fees, pNeg, rSolve, ite_self]

theorem resultIRR_rSolve (x : ℚ) (years : ℕ) : resultIRR (rSolve x) years = 0 := by
  simp [resultIRR, rSolve]

theorem solveLoop_mSolve (fuel : ℕ) :
    ∀ (x low high : ℚ),
      solveLoop 8 1 (1/2) fuel { mSolve with entry_multiple := x } low high =
        some (none, { mSolve with entry_multiple := 8 }) := by
  induction fuel with
  | zero =>
    intro x low high
    simp only [solveLoop]
  | succ f ih =>
    intro x low high
    simp only [solveLoop]
    have ht : trialModel ({ mSolve with entry_multiple := x }) 8 ((low + high) / 2) =
        { mSolve with entry_multiple := (low + high) / 2 } := by
      simp [trialModel, trial_tranches, mSolve]
    rw [ht, run_model_mSolve ((low + high) / 2)]
    simp only [resultIRR_rSolve]
    rw [if_neg (by norm_num), if_neg (by norm_num)]
    exact ih ((low + high) / 2) low ((low + high) / 2)

theorem solve_mSolve_eval :
    mSolve.solve_for_entry_multiple 1 5 15 (1/2) =
      some (none, { mSolve with entry_multiple := 8 }) := by
  rw [LBOModel.solve_for_entry_multiple]
  exact solveLoop_mSolve 50 8 5 15

/-- C4 witness: the solver on `mSolve` with bounds 5 and 15 exhausts its
iterations, returns the not-found signal and restores the model. -/
theorem solve_restores_state_witness :
    (0 : ℚ) < 5 ∧ (0 : ℚ) < 15 ∧ mSolve.entry_multiple ≠ 0 ∧
    mSolve.solve_for_entry_multiple 1 5 15 (1/2) = some (none, mSolve) ∧
    mSolve.entry_multiple = mSolve.entry_multiple ∧
    mSolve.debt_tranches = mSolve.debt_tranches := by
  have hback : ({ mSolve with entry_multiple := 8 } : LBOModel) = mSolve := rfl
  have hs : mSolve.solve_for_entry_multiple 1 5 15 (1/2) = some (none, mSolve) := by
    rw [solve_mSolve_eval, hback]
  have ho : mSolve.entry_multiple ≠ 0 := by
    rw [show mSolve.entry_multiple = 8 from rfl]
    norm_num
  exact ⟨by norm_num, by norm_num, ho, hs,
    (solve_restores_state mSolve 1 (1/2) 5 15 none mSolve (by norm_num) (by norm_num)
      ho hs).1,
    (solve_restores_state mSolve 1 (1/2) 5 15 none mSolve (by norm_num) (by norm_num)
      ho hs).2⟩

theorem amortLoop_sum {ts : List DebtTranche} (hnd : (ts.map DebtTranche.name).Nodup)
    (orig : String → ℚ) :
    ∀ (ps : List DebtTranche), (∀ t ∈ ps, t.name ∈ ts.map DebtTranche.name) →
      ∀ (bals : String → ℚ) (mp : ℚ),
        sumBals ts (amortLoop orig ps bals mp).1 + (amortLoop orig ps bals mp).2 =
          sumBals ts bals + mp := by
  intro ps
  induction ps with
  | nil => intro _ bals mp; rfl
  | cons t ps ih =>
    intro hmem bals mp
    by_cases hrev : t.is_revolver
    · simp only [amortLoop]
      rw [if_pos hrev]
      exact ih (fun u hu => hmem u (List.mem_cons_of_mem _ hu)) bals mp
    · simp only [amortLoop]
      rw [if_neg hrev]
      rw [ih (fun u hu => hmem u (List.mem_cons_of_mem _ hu)) _ _,
        sumBals_updBal_mem hnd (hmem t (List.mem_cons_self t ps)) bals
          (bals t.name - min (t.annual_amortization (orig t.name)) (bals t.name))]
      ring

theorem sweepLoop_sum {ts : List DebtTranche} (hnd : (ts.map DebtTranche.name).Nodup) :
    ∀ (ps : List DebtTranche), (∀ t ∈ ps, t.name ∈ ts.map DebtTranche.name) →
      ∀ (bals : String → ℚ) (sp remaining : ℚ),
        sumBals ts (sweepLoop ps bals sp remaining).1 +
            (sweepLoop ps bals sp remaining).2.1 =
          sumBals ts bals + sp := by
  intro ps
  induction ps with
  | nil => intro _ bals sp remaining; rfl
  | cons t ps ih =>
    intro hmem bals sp remaining
    simp only [sweepLoop]
    by_cases hr : remaining ≤ 0
    · rw [if_pos hr]
    · rw [if_neg hr]
      rw [ih (fun u hu => hmem u (List.mem_cons_of_mem _ hu)) _ _ _,
        sumBals_updBal_mem hnd (hmem t (List.mem_cons_self t ps)) bals
          (bals t.name - min remaining (bals t.name))]
      ring

theorem revolverLoop_no_rev (cash sp : ℚ) :
    ∀ (ps : List DebtTranche), (∀ t ∈ ps, t.is_revolver = false) →
      ∀ (bals : String → ℚ) (rc : ℚ),
        revolverLoop cash sp ps bals rc = (bals, rc) := by
  intro ps
  induction ps with
  | nil => intro _ bals rc; rfl
  | cons t ps ih =>
    intro hmem bals rc
    simp only [revolverLoop]
    rw [if_neg (by simp [hmem t (List.mem_cons_self t ps)])]
    exact ih (fun u hu => hmem u (List.mem_cons_of_mem _ hu)) bals rc

theorem revolverLoop_sum {ts : List DebtTranche}
    (hnd : (ts.map DebtTranche.name).Nodup) (cash sp : ℚ) :
    ∀ (ps : List DebtTranche), (∀ t ∈ ps, t.name ∈ ts.map DebtTranche.name) →
      ps.countP (fun t => t.is_revolver) ≤ 1 →
      ∀ (bals : String → ℚ),
        sumBals ts (revolverLoop cash sp ps bals 0).1 =
          sumBals ts bals + (revolverLoop cash sp ps bals 0).2 := by
  intro ps
  induction ps with
  | nil => intro _ _ bals; simp [revolverLoop]
  | cons t ps ih =>
    intro hmem hcount bals
    by_cases hrev : t.is_revolver
    · have hps0 : ps.countP (fun t => t.is_revolver) = 0 := by
        rw [List.countP_cons_of_pos _ _ (by simpa using hrev)] at hcount
        omega
      have hps : ∀ u ∈ ps, u.is_revolver = false := by
        intro u hu
        have := (List.countP_eq_zero.mp hps0) u hu
        simpa using this
      simp only [revolverLoop]
      rw [if_pos hrev]
      by_cases hc1 : cash < 0
      · rw [if_pos hc1, revolverLoop_no_rev cash sp ps hps _ _]
        rw [sumBals_updBal_mem hnd (hmem t (List.mem_cons_self t ps)) bals
          (bals t.name + min (-cash) (t.revolver_commitment - bals t.name))]
        ring
      · rw [if_neg hc1]
        by_cases hc2 : 0 < cash ∧ sp = 0
        · rw [if_pos hc2, revolverLoop_no_rev cash sp ps hps _ _]
          rw [sumBals_updBal_mem hnd (hmem t (List.mem_cons_self t ps)) bals
            (bals t.name - min cash (bals t.name))]
          ring
        · rw [if_neg hc2, revolverLoop_no_rev cash sp ps hps bals 0]
          simp
    · have hcount' : ps.countP (fun t => t.is_revolver) ≤ 1 := by
        rw [List.countP_cons_of_neg _ _ (by simpa using hrev)] at hcount
        exact hcount
      simp only [revolverLoop]
      rw [if_neg hrev]
      exact ih (fun u hu => hmem u (List.mem_cons_of_mem _ hu)) hcount' bals

theorem sweepOrder_names {ts : List DebtTranche} :
    ∀ t ∈ sweepOrder ts, t.name ∈ ts.map DebtTranche.name := by
  intro t ht
  have h1 : t ∈ ts.filter (fun t => !t.is_revolver) :=
    ((List.perm_insertionSort priorityLE _).mem_iff).mp ht
  exact List.mem_map_of_mem DebtTranche.name (List.mem_of_mem_filter h1)

theorem cash_sweep_step_sum {ts : List DebtTranche}
    (hnd : (ts.map DebtTranche.name).Nodup) (bals : String → ℚ) (cash : ℚ) :
    sumBals ts (cash_sweep_step ts bals cash).1 =
      sumBals ts bals - (cash_sweep_step ts bals cash).2 := by
  rw [cash_sweep_step]
  by_cases hc : 0 < cash
  · rw [if_pos hc]
    have h := sweepLoop_sum hnd (sweepOrder ts) sweepOrder_names bals 0 cash
    dsimp only
    linarith
  · rw [if_neg hc]
    simp

theorem runYear_sum {ts : List DebtTranche} (hnd : (ts.map DebtTranche.name).Nodup)
    (hrc : ts.countP (fun t => t.is_revolver) ≤ 1)
    (orig : String → ℚ) (maxit : ℕ) (thr : ℚ) (proj : LBOProjection)
    (bals : String → ℚ) (row : YearRecord) (bals' : String → ℚ)
    (h : runYear ts orig maxit thr proj bals = some (row, bals')) :
    sumBals ts bals' =
      sumBals ts bals -
        (row.mandatory_amortization + row.cash_sweep - row.revolver_change) := by
  have hmemts : ∀ t ∈ ts, t.name ∈ ts.map DebtTranche.name :=
    fun t ht => List.mem_map_of_mem DebtTranche.name ht
  rcases hIL : interestLoop ts bals proj thr 0 maxit with _ | ⟨ti, fcf⟩
  · rw [runYear, hIL] at h
    exact absurd h (by simp)
  · rw [runYear, hIL] at h
    dsimp only at h
    simp only [Option.some.injEq, Prod.mk.injEq] at h
    obtain ⟨hrow, hbals⟩ := h
    have hA := amortLoop_sum hnd orig ts hmemts bals 0
    have hS := cash_sweep_step_sum hnd (amortLoop orig ts bals 0).1
      (fcf - (amortLoop orig ts bals 0).2)
    have hR := revolverLoop_sum hnd (fcf - (amortLoop orig ts bals 0).2)
      (cash_sweep_step ts (amortLoop orig ts bals 0).1
        (fcf - (amortLoop orig ts bals 0).2)).2 ts hmemts hrc
      (cash_sweep_step ts (amortLoop orig ts bals 0).1
        (fcf - (amortLoop orig ts bals 0).2)).1
    rw [← hbals, ← hrow]
    dsimp only
    linarith

theorem runYearsLoop_sum {ts : List DebtTranche}
    (hnd : (ts.map DebtTranche.name).Nodup)
    (hrc : ts.countP (fun t => t.is_revolver) ≤ 1)
    (orig : String → ℚ) (maxit : ℕ) (thr : ℚ) :
    ∀ (ps : List LBOProjection) (bals : String → ℚ) (tp : ℚ) (yr : List YearRecord)
      (balsF : String → ℚ) (tpF : ℚ) (yrF : List YearRecord),
      runYearsLoop ts orig maxit thr ps bals tp yr = some (balsF, tpF, yrF) →
        sumBals ts balsF + tpF = sumBals ts bals + tp := by
  intro ps
  induction ps with
  | nil =>
    intro bals tp yr balsF tpF yrF h
    simp only [runYearsLoop, Option.some.injEq, Prod.mk.injEq] at h
    rw [← h.1, ← h.2.1]
  | cons p ps ih =>
    intro bals tp yr balsF tpF yrF h
    rcases hY : runYear ts orig maxit thr p bals with _ | ⟨row, bals'⟩
    · rw [runYearsLoop, hY] at h
      exact absurd h (by simp)
    · rw [runYearsLoop, hY] at h
      dsimp only at h
      have hrest := ih bals' _ _ balsF tpF yrF h
      have hys := runYear_sum hnd hrc orig maxit thr p bals row bals' hY
      linarith

/-- C5 (amended): for a model with a non-empty projection list, distinct
tranche names (the debt schedule keys balances by name) and at most one
revolver tranche, the reported `total_debt_paydown` equals total initial
debt minus exit net debt exactly. -/
theorem total_paydown_telescopes (m : LBOModel) (max_iterations : ℕ)
    (convergence_threshold : ℚ) (r : LBOResult)
    (hnd : (m.debt_tranches.map DebtTranche.name).Nodup)
    (hrc : m.debt_tranches.countP (fun t => t.is_revolver) ≤ 1)
    (h : m.run_model max_iterations convergence_threshold = some r) :
    r.total_debt_paydown = m.total_initial_debt - r.exit_net_debt := by
  rw [LBOModel.run_model] at h
  rcases Option.bind_eq_some.mp h with ⟨st, hst, hmap⟩
  rcases Option.map_eq_some'.mp hmap with ⟨lastP, hlast, hr⟩
  obtain ⟨balsF, tpF, yrF⟩ := st
  have hsum := runYearsLoop_sum hnd hrc (amountOf m.debt_tranches) max_iterations
    convergence_threshold m.projections (amountOf m.debt_tranches) 0 [] balsF tpF yrF
    hst
  rw [sumBals_amountOf hnd] at hsum
  rw [← hr]
  dsimp only [exitResult]
  rw [LBOModel.total_initial_debt]
  linarith

theorem run_model_mTwoRev : mTwoRev.run_model 10 (1/100) = some rTwoRev := by
  have h := runYear_eq [tR1, tR2] (amountOf [tR1, tR2]) 10 (1/100) pTR
    (amountOf [tR1, tR2]) (by norm_num)
  simp only [LBOModel.run_model, mTwoRev, runYearsLoop, h]
  simp [total_interest, DebtTranche.interest_expense, calculate_free_cash_flow,
    amortLoop, DebtTranche.annual_amortization, cash_sweep_step, sweepOrder, sweepLoop,
    revolverLoop, sumBals, updBal, amountOf, List.find?, exitResult,
    LBOModel.initial_equity, LBOModel.purchase_price, LBOModel.total_initial_debt,
    LBOModel.transaction_fees, LBOModel.financing_fees, tR1, tR2, pTR, rTwoRev,
    List.insertionSort, List.orderedInsert, priorityLE]
  norm_num

/-- C5 counterexample: with two revolver tranches both drawing in the same
year, `revolver_change` keeps only the last draw (line 294 assigns instead
of accumulating), so `total_debt_paydown` is -10 while entry debt minus
exit debt is -20. -/
theorem total_paydown_two_revolvers_counterexample :
    mTwoRev.projections ≠ [] ∧
    mTwoRev.run_model 10 (1/100) = some rTwoRev ∧
    rTwoRev.total_debt_paydown ≠ mTwoRev.total_initial_debt - rTwoRev.exit_net_debt := by
  refine ⟨by simp [mTwoRev], run_model_mTwoRev, ?_⟩
  norm_num [rTwoRev, mTwoRev, LBOModel.total_initial_debt, tR1, tR2]

/-- C5 witness: the telescoping identity on the debt-free model `mB0`. -/
theorem total_paydown_telescopes_witness :
    (mB0.debt_tranches.map DebtTranche.name).Nodup ∧
    mB0.debt_tranches.countP (fun t => t.is_revolver) ≤ 1 ∧
    mB0.run_model 10 (1/100) = some rB0 ∧
    rB0.total_debt_paydown = mB0.total_initial_debt - rB0.exit_net_debt :=
  ⟨by simp [mB0], by simp [mB0], run_model_mB0,
    total_paydown_telescopes mB0 10 (1/100) rB0 (by simp [mB0]) (by simp [mB0])
      run_model_mB0⟩

theorem updBal_nonneg {bals : String → ℚ} {v : ℚ} (hb : ∀ k, 0 ≤ bals k)
    (hv : 0 ≤ v) (n : String) : ∀ k, 0 ≤ updBal bals n v k := by
  intro k
  simp only [updBal]
  split_ifs
  · exact hv
  · exact hb k

theorem sumBals_nonneg {ts : List DebtTranche} {bals : String → ℚ}
    (hb : ∀ k, 0 ≤ bals k) : 0 ≤ sumBals ts bals := by
  refine List.sum_nonneg ?_
  intro a ha
  rcases List.mem_map.mp ha with ⟨t, _, rfl⟩
  exact hb t.name

theorem amortLoop_nonneg (orig : String → ℚ) :
    ∀ (ps : List DebtTranche) (bals : String → ℚ) (mp : ℚ), (∀ k, 0 ≤ bals k) →
      ∀ k, 0 ≤ (amortLoop orig ps bals mp).1 k := by
  intro ps
  induction ps with
  | nil => intro bals mp hb k; exact hb k
  | cons t ps ih =>
    intro bals mp hb k
    simp only [amortLoop]
    by_cases hrev : t.is_revolver
    · rw [if_pos hrev]
      exact ih bals mp hb k
    · rw [if_neg hrev]
      refine ih _ _ (updBal_nonneg hb ?_ t.name) k
      have := min_le_right (t.annual_amortization (orig t.name)) (bals t.name)
      linarith

theorem sweepLoop_nonneg :
    ∀ (ps : List DebtTranche) (bals : String → ℚ) (sp remaining : ℚ),
      (∀ k, 0 ≤ bals k) → ∀ k, 0 ≤ (sweepLoop ps bals sp remaining).1 k := by
  intro ps
  induction ps with
  | nil => intro bals sp remaining hb k; exact hb k
  | cons t ps ih =>
    intro bals sp remaining hb k
    simp only [sweepLoop]
    by_cases hr : remaining ≤ 0
    · rw [if_pos hr]
      exact hb k
    · rw [if_neg hr]
      refine ih _ _ _ (updBal_nonneg hb ?_ t.name) k
      have := min_le_right remaining (bals t.name)
      linarith

theorem revolverLoop_nonneg (cash sp : ℚ) :
    ∀ (ps : List DebtTranche), (∀ t ∈ ps, 0 ≤ t.revolver_commitment) →
      ∀ (bals : String → ℚ) (rc : ℚ), (∀ k, 0 ≤ bals k) →
        ∀ k, 0 ≤ (revolverLoop cash sp ps bals rc).1 k := by
  intro ps
  induction ps with
  | nil => intro _ bals rc hb k; exact hb k
  | cons t ps ih =>
    intro hcm bals rc hb k
    have hcm' : ∀ u ∈ ps, 0 ≤ u.revolver_commitment :=
      fun u hu => hcm u (List.mem_cons_of_mem _ hu)
    simp only [revolverLoop]
    by_cases hrev : t.is_revolver
    · rw [if_pos hrev]
      by_cases hc1 : cash < 0
      · rw [if_pos hc1]
        refine ih hcm' _ _ (updBal_nonneg hb ?_ t.name) k
        rcases min_cases (-cash) (t.revolver_commitment - bals t.name) with
          ⟨hmin, _⟩ | ⟨hmin, _⟩
        · rw [hmin]
          have := hb t.name
          linarith
        · rw [hmin]
          have := hcm t (List.mem_cons_self t ps)
          linarith
      · rw [if_neg hc1]
        by_cases hc2 : 0 < cash ∧ sp = 0
        · rw [if_pos hc2]
          refine ih hcm' _ _ (updBal_nonneg hb ?_ t.name) k
          have := min_le_right cash (bals t.name)
          linarith
        · rw [if_neg hc2]
          exact ih hcm' _ _ hb k
    · rw [if_neg hrev]
      exact ih hcm' _ _ hb k

theorem runYear_nonneg {ts : List DebtTranche}
    (hcm : ∀ t ∈ ts, 0 ≤ t.revolver_commitment)
    (orig : String → ℚ) (maxit : ℕ) (thr : ℚ) (proj : LBOProjection)
    {bals : String → ℚ} (hb : ∀ k, 0 ≤ bals k) {row : YearRecord}
    {bals' : String → ℚ}
    (h : runYear ts orig maxit thr proj bals = some (row, bals')) :
    (∀ k, 0 ≤ bals' k) ∧ 0 ≤ row.ending_debt := by
  rcases hIL : interestLoop ts bals proj thr 0 maxit with _ | ⟨ti, fcf⟩
  · rw [runYear, hIL] at h
    exact absurd h (by simp)
  · rw [runYear, hIL] at h
    dsimp only at h
    simp only [Option.some.injEq, Prod.mk.injEq] at h
    obtain ⟨hrow, hbals⟩ := h
    have h1 := amortLoop_nonneg orig ts bals 0 hb
    have h2 : ∀ k, 0 ≤ (cash_sweep_step ts (amortLoop orig ts bals 0).1
        (fcf - (amortLoop orig ts bals 0).2)).1 k := by
      rw [cash_sweep_step]
      split_ifs
      · exact sweepLoop_nonneg _ _ _ _ h1
      · exact h1
    have h3 := revolverLoop_nonneg (fcf - (amortLoop orig ts bals 0).2)
      (cash_sweep_step ts (amortLoop orig ts bals 0).1
        (fcf - (amortLoop orig ts bals 0).2)).2 ts hcm
      (cash_sweep_step ts (amortLoop orig ts bals 0).1
        (fcf - (amortLoop orig ts bals 0).2)).1 0 h2
    constructor
    · rw [← hbals]
      exact h3
    · rw [← hrow]
      exact sumBals_nonneg h3

theorem runYearsLoop_nonneg {ts : List DebtTranche}
    (hcm : ∀ t ∈ ts, 0 ≤ t.revolver_commitment)
    (orig : String → ℚ) (maxit : ℕ) (thr : ℚ) :
    ∀ (ps : List LBOProjection) (bals : String → ℚ) (tp : ℚ) (yr : List YearRecord)
      (balsF : String → ℚ) (tpF : ℚ) (yrF : List YearRecord),
      (∀ k, 0 ≤ bals k) → (∀ y ∈ yr, 0 ≤ y.ending_debt) →
      runYearsLoop ts orig maxit thr ps bals tp yr = some (balsF, tpF, yrF) →
        (∀ k, 0 ≤ balsF k) ∧ ∀ y ∈ yrF, 0 ≤ y.ending_debt := by
  intro ps
  induction ps with
  | nil =>
    intro bals tp yr balsF tpF yrF hb hyr h
    simp only [runYearsLoop, Option.some.injEq, Prod.mk.injEq] at h
    rw [← h.1, ← h.2.2]
    exact ⟨hb, hyr⟩
  | cons p ps ih =>
    intro bals tp yr balsF tpF yrF hb hyr h
    rcases hY : runYear ts orig maxit thr p bals with _ | ⟨row, bals'⟩
    · rw [runYearsLoop, hY] at h
      exact absurd h (by simp)
    · rw [runYearsLoop, hY] at h
      dsimp only at h
      obtain ⟨hb', hrow⟩ := runYear_nonneg hcm orig maxit thr p hb hY
      refine ih bals' _ _ balsF tpF yrF hb' ?_ h
      intro y hy
      rcases List.mem_append.mp hy with hy | hy
      · exact hyr y hy
      · rw [List.mem_singleton.mp hy]
        exact hrow

/-- C6: when every tranche has a non-negative amount and a non-negative
revolver commitment, every balance stays non-negative through every
amortization, sweep and revolver step (the `*_nonneg` step lemmas above),
so each year's recorded ending debt and the final exit net debt are
non-negative. -/
theorem tranche_balances_nonneg (m : LBOModel) (max_iterations : ℕ)
    (convergence_threshold : ℚ) (r : LBOResult)
    (hA : ∀ t ∈ m.debt_tranches, 0 ≤ t.amount)
    (hC : ∀ t ∈ m.debt_tranches, 0 ≤ t.revolver_commitment)
    (h : m.run_model max_iterations convergence_threshold = some r) :
    0 ≤ r.exit_net_debt ∧ ∀ y ∈ r.yearly_results, 0 ≤ y.ending_debt := by
  rw [LBOModel.run_model] at h
  rcases Option.bind_eq_some.mp h with ⟨st, hst, hmap⟩
  rcases Option.map_eq_some'.mp hmap with ⟨lastP, hlast, hr⟩
  obtain ⟨balsF, tpF, yrF⟩ := st
  have h0 : ∀ k, 0 ≤ amountOf m.debt_tranches k := amountOf_nonneg hA
  have hloop := runYearsLoop_nonneg hC (amountOf m.debt_tranches) max_iterations
    convergence_threshold m.projections (amountOf m.debt_tranches) 0 [] balsF tpF yrF
    h0 (by simp) hst
  rw [← hr]
  exact ⟨sumBals_nonneg hloop.1, hloop.2⟩

/-- C6 witness: the non-negative exit debt of `mB0`. -/
theorem tranche_balances_nonneg_witness :
    mB0.run_model 10 (1/100) = some rB0 ∧ 0 ≤ rB0.exit_net_debt :=
  ⟨run_model_mB0,
    (tranche_balances_nonneg mB0 10 (1/100) rB0 (by simp [mB0]) (by simp [mB0])
      run_model_mB0).1⟩

theorem sweepLoop_nonpos_rem {remaining : ℚ} (h : remaining ≤ 0) :
    ∀ (ps : List DebtTranche) (bals : String → ℚ) (sp : ℚ),
      sweepLoop ps bals sp remaining = (bals, sp, remaining) := by
  intro ps
  cases ps with
  | nil => intro bals sp; rfl
  | cons t ps =>
    intro bals sp
    simp only [sweepLoop]
    rw [if_pos h]

theorem sweepLoop_le :
    ∀ (ps : List DebtTranche) (bals : String → ℚ) (sp remaining : ℚ),
      (∀ k, 0 ≤ bals k) → ∀ k, (sweepLoop ps bals sp remaining).1 k ≤ bals k := by
  intro ps
  induction ps with
  | nil => intro bals sp remaining _ k; exact le_refl _
  | cons t ps ih =>
    intro bals sp remaining hb k
    simp only [sweepLoop]
    by_cases hr : remaining ≤ 0
    · rw [if_pos hr]
    · rw [if_neg hr]
      have hpd : 0 ≤ min remaining (bals t.name) :=
        le_min (by linarith) (hb t.name)
      have hupd : ∀ j, updBal bals t.name
          (bals t.name - min remaining (bals t.name)) j ≤ bals j := by
        intro j
        simp only [updBal]
        split_ifs with hj
        · subst hj
          linarith
        · exact le_refl _
      have hbn : ∀ j, 0 ≤ updBal bals t.name
          (bals t.name - min remaining (bals t.name)) j := by
        refine updBal_nonneg hb ?_ t.name
        have := min_le_right remaining (bals t.name)
        linarith
      exact le_trans (ih _ _ _ hbn k) (hupd k)

theorem sweepLoop_prefix_zero :
    ∀ (l1 : List DebtTranche) (t : DebtTranche) (l2 : List DebtTranche)
      (bals : String → ℚ) (sp remaining : ℚ),
      ((l1 ++ t :: l2).map DebtTranche.name).Nodup →
      (∀ k, 0 ≤ bals k) →
      (sweepLoop (l1 ++ t :: l2) bals sp remaining).1 t.name < bals t.name →
      ∀ u ∈ l1, (sweepLoop (l1 ++ t :: l2) bals sp remaining).1 u.name = 0 := by
  intro l1
  induction l1 with
  | nil =>
    intro t l2 bals sp remaining _ _ _ u hu
    simp at hu
  | cons v l1 ih =>
    intro t l2 bals sp remaining hnd hb hdec u hu
    rw [List.cons_append] at hnd hdec ⊢
    by_cases hr : remaining ≤ 0
    · rw [show sweepLoop (v :: (l1 ++ t :: l2)) bals sp remaining =
          (bals, sp, remaining) from sweepLoop_nonpos_rem hr _ _ _] at hdec
      exact absurd hdec (lt_irrefl _)
    · simp only [sweepLoop] at hdec ⊢
      rw [if_neg hr] at hdec ⊢
      have hvt : v.name ≠ t.name := by
        simp only [List.map_cons, List.nodup_cons] at hnd
        intro hc
        exact hnd.1 (hc ▸ (List.mem_map_of_mem DebtTranche.name
          (List.mem_append_right l1 (List.mem_cons_self t l2))))
      have hbn : ∀ j, 0 ≤ updBal bals v.name
          (bals v.name - min remaining (bals v.name)) j := by
        refine updBal_nonneg hb ?_ v.name
        have := min_le_right remaining (bals v.name)
        linarith
      have hbt : updBal bals v.name (bals v.name - min remaining (bals v.name))
          t.name = bals t.name := updBal_ne bals _ (fun hc => hvt hc.symm)
      have hnd' : ((l1 ++ t :: l2).map DebtTranche.name).Nodup := by
        simp only [List.map_cons, List.nodup_cons] at hnd
        exact hnd.2
      rcases List.mem_cons.mp hu with rfl | hul1
      · -- u = v: the head tranche is paid in full or the loop stops short
        rcases le_or_lt (bals u.name) remaining with hcase | hcase
        · -- full payment: the head balance drops to 0 and never grows back
          have hzero : updBal bals u.name
              (bals u.name - min remaining (bals u.name)) u.name = 0 := by
            rw [updBal_same, min_eq_right hcase]
            ring
          refine le_antisymm ?_ (sweepLoop_nonneg _ _ _ _ hbn u.name)
          calc (sweepLoop (l1 ++ t :: l2)
                (updBal bals u.name (bals u.name - min remaining (bals u.name)))
                (sp + min remaining (bals u.name))
                (remaining - min remaining (bals u.name))).1 u.name
              ≤ updBal bals u.name
                (bals u.name - min remaining (bals u.name)) u.name :=
                sweepLoop_le _ _ _ _ hbn u.name
            _ = 0 := hzero
        · -- the head absorbs all remaining cash: the rest of the loop is
          -- a no-op, contradicting the decrease at t
          exfalso
          have hmin : min remaining (bals u.name) = remaining :=
            min_eq_left hcase.le
          rw [hmin] at hdec
          rw [show remaining - remaining = (0:ℚ) from by ring] at hdec
          rw [sweepLoop_nonpos_rem (le_refl 0) _ _ _] at hdec
          dsimp only at hdec
          rw [updBal_ne bals _ (fun hc => hvt hc.symm)] at hdec
          exact absurd hdec (lt_irrefl _)
      · -- u strictly earlier than t in the tail: induction hypothesis
        have hdec' : (sweepLoop (l1 ++ t :: l2)
            (updBal bals v.name (bals v.name - min remaining (bals v.name)))
            (sp + min remaining (bals v.name))
            (remaining - min remaining (bals v.name))).1 t.name <
            updBal bals v.name (bals v.name - min remaining (bals v.name))
              t.name := by
          rw [hbt]
          exact hdec
        exact ih t l2 _ _ _ hnd' hbn hdec' u hul1

theorem mem_sweepOrder {ts : List DebtTranche} {t : DebtTranche}
    (ht : t ∈ ts) (htr : t.is_revolver = false) : t ∈ sweepOrder ts := by
  rw [sweepOrder]
  refine ((List.perm_insertionSort priorityLE _).mem_iff).mpr ?_
  exact List.mem_filter.mpr ⟨ht, by simp [htr]⟩

theorem sweepOrder_nodup_names {ts : List DebtTranche}
    (hnd : (ts.map DebtTranche.name).Nodup) :
    ((sweepOrder ts).map DebtTranche.name).Nodup := by
  have hperm : List.Perm ((sweepOrder ts).map DebtTranche.name)
      ((ts.filter (fun t => !t.is_revolver)).map DebtTranche.name) :=
    (List.perm_insertionSort priorityLE _).map _
  have hsub : List.Sublist ((ts.filter (fun t => !t.is_revolver)).map DebtTranche.name)
      (ts.map DebtTranche.name) := (List.filter_sublist ts).map _
  exact hperm.nodup_iff.mpr (hnd.sublist hsub)

/-- C7: in each year's cash sweep the non-revolver tranches are walked in
ascending `cash_sweep_priority` order (the processing list is sorted), and
whenever sweep cash reaches a tranche `t` (its balance strictly
decreases), every non-revolver tranche `u` of strictly lower priority
number has been driven to balance exactly 0.  In particular no payment
touches Mezz in a year whose sweep does not fully retire Senior. -/
theorem cash_sweep_priority_waterfall (ts : List DebtTranche) (bals : String → ℚ)
    (cash_for_sweep : ℚ) (t u : DebtTranche)
    (hnd : (ts.map DebtTranche.name).Nodup)
    (hb : ∀ k, 0 ≤ bals k)
    (ht : t ∈ ts) (hu : u ∈ ts)
    (htr : t.is_revolver = false) (hur : u.is_revolver = false)
    (hp : u.cash_sweep_priority < t.cash_sweep_priority)
    (hpaid : (cash_sweep_step ts bals cash_for_sweep).1 t.name < bals t.name) :
    List.Sorted priorityLE (sweepOrder ts) ∧
    (cash_sweep_step ts bals cash_for_sweep).1 u.name = 0 := by
  have hsorted : List.Sorted priorityLE (sweepOrder ts) :=
    List.sorted_insertionSort priorityLE _
  refine ⟨hsorted, ?_⟩
  rw [cash_sweep_step] at hpaid ⊢
  by_cases hc : 0 < cash_for_sweep
  · rw [if_pos hc] at hpaid ⊢
    dsimp only at hpaid ⊢
    have htmem : t ∈ sweepOrder ts := mem_sweepOrder ht htr
    have humem : u ∈ sweepOrder ts := mem_sweepOrder hu hur
    rcases List.append_of_mem htmem with ⟨l1, l2, hsplit⟩
    have hul1 : u ∈ l1 := by
      rcases List.mem_append.mp (by rw [← hsplit]; exact humem) with h | h
      · exact h
      · rcases List.mem_cons.mp h with rfl | h
        · exact absurd hp (lt_irrefl _)
        · exfalso
          have hpw := hsplit ▸ hsorted
          have hrel : priorityLE t u :=
            ((List.pairwise_cons.mp (List.pairwise_append.mp hpw).2.1).1) u h
          have : t.cash_sweep_priority ≤ u.cash_sweep_priority := hrel
          omega
    have hndso := sweepOrder_nodup_names hnd
    rw [hsplit] at hndso hpaid ⊢
    exact sweepLoop_prefix_zero l1 t l2 bals 0 cash_for_sweep hndso hb hpaid u hul1
  · rw [if_neg hc] at hpaid
    exact absurd hpaid (lt_irrefl _)

theorem sweep_tsSM_eval :
    (cash_sweep_step tsSM (amountOf tsSM) 450).1 "Mezz" = 100 ∧
    amountOf tsSM "Mezz" = 150 := by
  constructor
  · simp [cash_sweep_step, sweepOrder, sweepLoop, tsSM, tSenior, tMezz, amountOf,
      List.find?, updBal, List.insertionSort, List.orderedInsert, priorityLE]
    norm_num [updBal]
  · simp [amountOf, tsSM, tSenior, tMezz, List.find?]

/-- C7 witness: Senior/Mezz with sweep cash 450: Mezz is touched (its
balance drops from 150 to 100) and Senior ends at exactly 0. -/
theorem cash_sweep_priority_waterfall_witness :
    (cash_sweep_step tsSM (amountOf tsSM) 450).1 "Mezz" < amountOf tsSM "Mezz" ∧
    (cash_sweep_step tsSM (amountOf tsSM) 450).1 "Senior" = 0 := by
  have hb : ∀ k, 0 ≤ amountOf tsSM k := by
    refine amountOf_nonneg ?_
    intro t ht
    rcases List.mem_cons.mp ht with rfl | ht
    · norm_num [tSenior]
    · rcases List.mem_cons.mp ht with rfl | ht
      · norm_num [tMezz]
      · simp at ht
  have hpaid : (cash_sweep_step tsSM (amountOf tsSM) 450).1 tMezz.name <
      amountOf tsSM tMezz.name := by
    show (cash_sweep_step tsSM (amountOf tsSM) 450).1 "Mezz" < amountOf tsSM "Mezz"
    rw [sweep_tsSM_eval.1, sweep_tsSM_eval.2]
    norm_num
  have hmain := cash_sweep_priority_waterfall tsSM (amountOf tsSM) 450 tMezz tSenior
    (by simp [tsSM, tSenior, tMezz]) hb
    (by simp [tsSM]) (by simp [tsSM]) rfl rfl (by decide) hpaid
  exact ⟨hpaid, hmain.2⟩

theorem run_model_inv {m : LBOModel} {maxit : ℕ} {thr : ℚ} {r : LBOResult}
    (h : m.run_model maxit thr = some r) :
    ∃ st lastP, runYearsLoop m.debt_tranches (amountOf m.debt_tranches) maxit thr
        m.projections (amountOf m.debt_tranches) 0 [] = some st ∧
      m.projections.getLast? = some lastP ∧
      r = exitResult m lastP st.1 st.2.1 st.2.2 := by
  rw [LBOModel.run_model] at h
  rcases Option.bind_eq_some.mp h with ⟨st, hst, hmap⟩
  rcases Option.map_eq_some'.mp hmap with ⟨p, hlast, hr⟩
  exact ⟨st, p, hst, hlast, hr.symm⟩

/-- C9 (amended): increasing the exit multiple strictly increases both
MOIC and IRR provided the final-year EBITDA is positive, the entry equity
is positive, and the exit equity at the smaller multiple is positive (so
that its MOIC is positive); the debt schedule does not depend on the exit
multiple, so only the exit valuation moves. -/
theorem exit_multiple_monotonic (m : LBOModel) (e2 : ℚ) (max_iterations : ℕ)
    (convergence_threshold : ℚ) (r1 r2 : LBOResult)
    (hlt : m.exit_multiple < e2)
    (hE : 0 < lastEbitda m)
    (hEq : 0 < m.initial_equity)
    (h1 : m.run_model max_iterations convergence_threshold = some r1)
    (h2 : ({ m with exit_multiple := e2 } : LBOModel).run_model max_iterations
      convergence_threshold = some r2)
    (hpos : 0 < r1.exit_equity) :
    r1.moic < r2.moic ∧
    resultIRR r1 m.projections.length < resultIRR r2 m.projections.length := by
  obtain ⟨st1, p1, hst1, hlast1, hr1⟩ := run_model_inv h1
  obtain ⟨st2, p2, hst2, hlast2, hr2⟩ := run_model_inv h2
  have eT : ({ m with exit_multiple := e2 } : LBOModel).debt_tranches =
      m.debt_tranches := rfl
  have eP : ({ m with exit_multiple := e2 } : LBOModel).projections =
      m.projections := rfl
  have eE : ({ m with exit_multiple := e2 } : LBOModel).initial_equity =
      m.initial_equity := rfl
  have eX : ({ m with exit_multiple := e2 } : LBOModel).exit_multiple = e2 := rfl
  rw [eT, eP] at hst2 hlast2
  have hstE : st1 = st2 := Option.some.inj (hst1.symm.trans hst2)
  have hpE : p1 = p2 := Option.some.inj (hlast1.symm.trans hlast2)
  subst hstE
  subst hpE
  have hEe : lastEbitda m = p1.ebitda := by
    rw [lastEbitda, hlast1]
    rfl
  rw [hEe] at hE
  have hmoic1 : r1.moic = (p1.ebitda * m.exit_multiple -
      sumBals m.debt_tranches st1.1) / m.initial_equity := by
    rw [hr1]
    dsimp only [exitResult]
    rw [if_pos hEq]
  have hmoic2 : r2.moic = (p1.ebitda * e2 -
      sumBals m.debt_tranches st1.1) / m.initial_equity := by
    rw [hr2]
    dsimp only [exitResult]
    rw [eE, if_pos hEq]
  have hexq1 : r1.exit_equity = p1.ebitda * m.exit_multiple -
      sumBals m.debt_tranches st1.1 := by
    rw [hr1]
    dsimp only [exitResult]
  rw [hexq1] at hpos
  have hn : 0 < m.projections.length := by
    cases hq : m.projections with
    | nil =>
      rw [hq] at hlast1
      simp at hlast1
    | cons a l => simp [hq]
  have haltlt : p1.ebitda * m.exit_multiple - sumBals m.debt_tranches st1.1 <
      p1.ebitda * e2 - sumBals m.debt_tranches st1.1 := by
    have := mul_lt_mul_of_pos_left hlt hE
    linarith
  have hmlt : r1.moic < r2.moic := by
    rw [hmoic1, hmoic2]
    exact (div_lt_div_iff_of_pos_right hEq).mpr haltlt
  refine ⟨hmlt, ?_⟩
  have hm1pos : 0 < r1.moic := by
    rw [hmoic1]
    exact div_pos hpos hEq
  have hm2pos : 0 < r2.moic := lt_trans hm1pos hmlt
  simp only [resultIRR]
  rw [if_pos ⟨hm1pos, hn⟩, if_pos ⟨hm2pos, hn⟩]
  have hcast : (r1.moic : ℝ) < (r2.moic : ℝ) := by exact_mod_cast hmlt
  have h0 : (0 : ℝ) ≤ (r1.moic : ℝ) := by
    have := le_of_lt hm1pos
    exact_mod_cast this
  have hz : (0 : ℝ) < 1 / (m.projections.length : ℝ) :=
    one_div_pos.mpr (by exact_mod_cast hn)
  have := Real.rpow_lt_rpow h0 hcast hz
  linarith

theorem run_model_mNegEq : mNegEq.run_model 10 (1/100) = some rNegEq := by
  have h := runYear_eq [tUni] (amountOf [tUni]) 10 (1/100) pB0 (amountOf [tUni])
    (by norm_num)
  simp only [LBOModel.run_model, mNegEq, runYearsLoop, h]
  simp [total_interest, DebtTranche.interest_expense, calculate_free_cash_flow,
    amortLoop, DebtTranche.annual_amortization, cash_sweep_step, sweepOrder, sweepLoop,
    revolverLoop, sumBals, updBal, amountOf, List.find?, exitResult,
    LBOModel.initial_equity, LBOModel.purchase_price, LBOModel.total_initial_debt,
    LBOModel.transaction_fees, LBOModel.financing_fees, tUni, pB0, rNegEq,
    List.insertionSort, List.orderedInsert, priorityLE]
  norm_num [updBal]

theorem run_model_mNegEqHi :
    ({ mNegEq with exit_multiple := 6 } : LBOModel).run_model 10 (1/100) =
      some rNegEqHi := by
  have h := runYear_eq [tUni] (amountOf [tUni]) 10 (1/100) pB0 (amountOf [tUni])
    (by norm_num)
  simp only [LBOModel.run_model, mNegEq, runYearsLoop, h]
  simp [total_interest, DebtTranche.interest_expense, calculate_free_cash_flow,
    amortLoop, DebtTranche.annual_amortization, cash_sweep_step, sweepOrder, sweepLoop,
    revolverLoop, sumBals, updBal, amountOf, List.find?, exitResult,
    LBOModel.initial_equity, LBOModel.purchase_price, LBOModel.total_initial_debt,
    LBOModel.transaction_fees, LBOModel.financing_fees, tUni, pB0, rNegEqHi,
    List.insertionSort, List.orderedInsert, priorityLE]
  norm_num [updBal]

/-- C9 counterexample: with entry equity -600 the MOIC is clamped to 0 at
both exit 5x and exit 6x, so raising the exit multiple does not strictly
increase MOIC (nor IRR, which is 0 in both runs). -/
theorem exit_multiple_monotonic_counterexample :
    mNegEq.exit_multiple < ({ mNegEq with exit_multiple := 6 } : LBOModel).exit_multiple ∧
    mNegEq.run_model 10 (1/100) = some rNegEq ∧
    ({ mNegEq with exit_multiple := 6 } : LBOModel).run_model 10 (1/100) =
      some rNegEqHi ∧
    ¬(rNegEq.moic < rNegEqHi.moic) := by
  refine ⟨by norm_num [mNegEq], run_model_mNegEq, run_model_mNegEqHi, ?_⟩
  norm_num [rNegEq, rNegEqHi]

theorem run_model_mB0Hi :
    ({ mB0 with exit_multiple := 5 } : LBOModel).run_model 10 (1/100) =
      some rB0Hi := by
  have h := runYear_eq [] (amountOf []) 10 (1/100) pB0 (amountOf []) (by norm_num)
  simp only [LBOModel.run_model, mB0, runYearsLoop, h]
  norm_num [total_interest, calculate_free_cash_flow, amortLoop, cash_sweep_step,
    sweepOrder, sweepLoop, revolverLoop, sumBals, exitResult, LBOModel.initial_equity,
    LBOModel.purchase_price, LBOModel.total_initial_debt, LBOModel.transaction_fees,
    LBOModel.financing_fees, pB0, rB0Hi]

/-- C9 witness: raising the exit multiple of the debt-free model `mB0`
from 4x to 5x strictly raises its MOIC from 4/5 to 1. -/
theorem exit_multiple_monotonic_witness :
    mB0.exit_multiple < 5 ∧ 0 < lastEbitda mB0 ∧ 0 < mB0.initial_equity ∧
    mB0.run_model 10 (1/100) = some rB0 ∧
    ({ mB0 with exit_multiple := 5 } : LBOModel).run_model 10 (1/100) = some rB0Hi ∧
    0 < rB0.exit_equity ∧ rB0.moic < rB0Hi.moic := by
  have hE : 0 < lastEbitda mB0 := by
    rw [show lastEbitda mB0 = 100 from rfl]
    norm_num
  have hEq : 0 < mB0.initial_equity := by
    rw [show mB0.initial_equity = 500 from by
      norm_num [LBOModel.initial_equity, LBOModel.purchase_price,
        LBOModel.total_initial_debt, LBOModel.transaction_fees,
        LBOModel.financing_fees, mB0]]
    norm_num
  refine ⟨by norm_num [mB0], hE, hEq, run_model_mB0, run_model_mB0Hi,
    by norm_num [rB0], ?_⟩
  exact (exit_multiple_monotonic mB0 5 10 (1/100) rB0 rB0Hi (by norm_num [mB0]) hE
    hEq run_model_mB0 run_model_mB0Hi (by norm_num [rB0])).1
